import Mathlib

/-!
Verification development for the Monkey interpreter (Go sources under src/).

The embedding mirrors, file by file:
  * the token package (its current version is absent from src/ — only an old
    revision survives under src/unnamed/part_002 — so the token kinds and the
    keyword table are modelled from the spec, corroborated by both lexer.go
    and parser.go which reference them);
  * lexer/lexer.go (the single version in the file);
  * ast/ast.go (node types and their String() printers);
  * parser/parser.go (the full Pratt parser, the second version in the file,
    the one the claims cite by line number);
  * object/* and evaluator/evaluator.go (the environment-based evaluator,
    the first version in the file, the one the claims cite by line number).

Modelling conventions, chosen to stay faithful to the Go code:
  * Go interface values that may be nil are `Option` (or carry an explicit
    nil constructor) — a nil `object.Object` is `none` in `Option ObjV`.
  * A Go runtime panic (nil dereference, integer division by zero) is the
    outer `none` of the evaluator's `Option` result.
  * Pointer identity of the canonical singletons TRUE/FALSE/NULL is modelled
    by a `canonical : Bool` flag on Boolean objects: the evaluator only ever
    compares objects against the canonical singletons (in the `!` operator's
    switch), never two fresh allocations against each other, so the flag is
    an exact model of those pointer comparisons.  All Null objects produced
    by the evaluator are the canonical NULL, so `null` needs no flag.
  * Go's int64 arithmetic wraps; `wrap64` reduces every arithmetic result
    into the int64 range, matching Go's two's-complement semantics.
  * Recursion that is a loop over an input the Go code consumes (the token
    stream, the evaluator's recursive descent) is given an explicit fuel
    argument so every definition computes by `rfl`; fuel bounds only the
    recursion depth, and each theorem about a concrete program supplies
    ample fuel.  Running out of fuel yields `none`/`[]`, which no theorem
    below confuses with a real result.
-/

/-- A lexical token: `Type` and `Literal` of the Go `token.Token` struct
(`Type` is spelled `ttype` because `Type` is reserved in Lean). -/
structure Token where
  ttype : String
  literal : String
deriving Repr, DecidableEq

/-- Modelled from the spec: the keyword table of the token package, whose
current version is missing from src/ (the old revision in
src/unnamed/part_002 has only `fn` and `let`).  Spec §3 lists the keywords
LET, FN, TRUE, FALSE, IF, ELSE, RETURN, WHILE, FOR, IN, MAP; unmatched
identifiers become IDENT. -/
def LookupIdent (ident : String) : String :=
  if ident = "fn" then "FUNCTION"
  else if ident = "let" then "LET"
  else if ident = "true" then "TRUE"
  else if ident = "false" then "FALSE"
  else if ident = "if" then "IF"
  else if ident = "else" then "ELSE"
  else if ident = "return" then "RETURN"
  else if ident = "while" then "WHILE"
  else if ident = "for" then "FOR"
  else if ident = "in" then "IN"
  else if ident = "map" then "MAP"
  else "IDENT"

/-- lexer.go `isLetter`: ASCII letters and underscore. -/
def isLetterCh (c : Char) : Bool :=
  ('a' ≤ c && c ≤ 'z') || ('A' ≤ c && c ≤ 'Z') || c = '_'

/-- lexer.go `isNumber`: ASCII digits. -/
def isNumberCh (c : Char) : Bool :=
  '0' ≤ c && c ≤ '9'

/-- lexer.go `skipWhitespace`: the characters it skips. -/
def isWhitespaceCh (c : Char) : Bool :=
  c = ' ' || c = '\t' || c = '\n' || c = '\r'

/-- The NUL byte the Go lexer uses as its end-of-input marker. -/
def chNul : Char := Char.ofNat 0

/-- Length of the longest prefix satisfying `p` (the distance the Go
lexer's `readIdentifier`/`readNumber`/`skipWhitespace` loops travel). -/
def takeWhileLen (p : Char → Bool) : List Char → Nat
  | [] => 0
  | c :: cs => if p c then takeWhileLen p cs + 1 else 0

/-- The lexer's current character: `l.ch`, which is the byte at
`l.position`, or NUL at or past end of input. -/
def curCh (input : List Char) (pos : Nat) : Char :=
  (input.drop pos).headD chNul

/-- lexer.go `peekChar`: the byte at `l.readPosition = l.position + 1`. -/
def peekCh (input : List Char) (pos : Nat) : Char :=
  curCh input (pos + 1)

/-- lexer.go `skipWhitespace`, as the position it stops at. -/
def skipWhitespacePos (input : List Char) (pos : Nat) : Nat :=
  pos + takeWhileLen isWhitespaceCh (input.drop pos)

/-- lexer.go `readString`'s scan: number of bytes of string body starting
after the opening quote, stopping before the next `"` or at end of input. -/
def stringBodyLen : List Char → Nat
  | [] => 0
  | c :: cs => if c = '"' then 0 else stringBodyLen cs + 1

/-- The slice `l.input[a:b]` as a Lean string. -/
def sliceStr (input : List Char) (a b : Nat) : String :=
  String.mk ((input.drop a).take (b - a))

/-- lexer.go `NextToken` on (input, l.position); returns the token and the
lexer's position after the call.  The Go switch is rendered as an if-chain
over the same cases in the same order; the final `l.readChar()` is the
`+ 1` on each branch that does not return early. -/
def NextToken (input : List Char) (pos : Nat) : Token × Nat :=
  let p := skipWhitespacePos input pos
  let ch := curCh input p
  if ch = '=' then
    if peekCh input p = '=' then (⟨"==", "=="⟩, p + 2) else (⟨"=", "="⟩, p + 1)
  else if ch = ';' then (⟨";", ";"⟩, p + 1)
  else if ch = ':' then (⟨":", ":"⟩, p + 1)
  else if ch = '(' then (⟨"(", "("⟩, p + 1)
  else if ch = ')' then (⟨")", ")"⟩, p + 1)
  else if ch = ',' then (⟨",", ","⟩, p + 1)
  else if ch = '+' then (⟨"+", "+"⟩, p + 1)
  else if ch = '{' then (⟨"\x7b", "\x7b"⟩, p + 1)
  else if ch = '}' then (⟨"\x7d", "\x7d"⟩, p + 1)
  else if ch = '!' then
    if peekCh input p = '=' then (⟨"!=", "!="⟩, p + 2) else (⟨"!", "!"⟩, p + 1)
  else if ch = '-' then (⟨"-", "-"⟩, p + 1)
  else if ch = '/' then (⟨"/", "/"⟩, p + 1)
  else if ch = '*' then (⟨"*", "*"⟩, p + 1)
  else if ch = '<' then (⟨"<", "<"⟩, p + 1)
  else if ch = '>' then (⟨">", ">"⟩, p + 1)
  else if ch = '"' then
    let bodyLen := stringBodyLen (input.drop (p + 1))
    (⟨"STRING", sliceStr input (p + 1) (p + 1 + bodyLen)⟩, p + 1 + bodyLen + 1)
  else if ch = '[' then (⟨"[", "["⟩, p + 1)
  else if ch = ']' then (⟨"]", "]"⟩, p + 1)
  else if ch = chNul then (⟨"EOF", ""⟩, p + 1)
  else if isLetterCh ch then
    let len := takeWhileLen isLetterCh (input.drop p)
    let lexeme := sliceStr input p (p + len)
    (⟨LookupIdent lexeme, lexeme⟩, p + len)
  else if isNumberCh ch then
    let len := takeWhileLen isNumberCh (input.drop p)
    (⟨"INT", sliceStr input p (p + len)⟩, p + len)
  else (⟨"ILLEGAL", String.mk [ch]⟩, p + 1)

/-- Repeated `NextToken` until EOF, collecting the token stream.  Fuel
bounds the number of tokens; every `NextToken` call advances the position
by at least one byte, so `input.length + 1` tokens always suffice to reach
the EOF token and the fuel never runs out for `tokens` below. -/
def tokensFromFuel : Nat → List Char → Nat → List Token
  | 0, _, _ => []
  | fuel + 1, input, pos =>
    let tp := NextToken input pos
    if tp.1.ttype = "EOF" then [tp.1] else tp.1 :: tokensFromFuel fuel input tp.2

/-- The full token stream of a source text (ends with the EOF token). -/
def tokens (s : String) : List Token :=
  tokensFromFuel (s.length + 1) s.toList 0

example : tokens "let x = 5;" =
    [⟨"LET", "let"⟩, ⟨"IDENT", "x"⟩, ⟨"=", "="⟩, ⟨"INT", "5"⟩, ⟨";", ";"⟩, ⟨"EOF", ""⟩] := by
  rfl

example : tokens "// hi\n5" =
    [⟨"/", "/"⟩, ⟨"/", "/"⟩, ⟨"IDENT", "hi"⟩, ⟨"INT", "5"⟩, ⟨"EOF", ""⟩] := by
  rfl

example : tokens "!= == \"ab\"" =
    [⟨"!=", "!="⟩, ⟨"==", "=="⟩, ⟨"STRING", "ab"⟩, ⟨"EOF", ""⟩] := by
  rfl

/-!  ast/ast.go: the node types.  Go interface-typed fields (`Expression`,
`Statement`) may hold a nil interface value; the constructor `nilNode`
stands for that nil.  Pointer-typed fields (`*BlockStatement`) are
`Option Ast`.  `nilLetStatement` stands for the typed-nil
`*ast.LetStatement` the parser returns after a malformed `let` (a non-nil
interface holding a nil pointer, which `ParseProgram`'s `stmt != nil`
check does not filter out).  -/
inductive Ast where
  | program (statements : List Ast)
  | letStatement (name : String) (value : Ast)
  | returnStatement (returnValue : Ast)
  | expressionStatement (expression : Ast)
  | identifier (value : String)
  | integerLiteral (literal : String) (value : Int)
  | boolean (literal : String) (value : Bool)
  | stringLiteral (literal : String) (value : String)
  | prefixExpression (operator : String) (right : Ast)
  | infixExpression (left : Ast) (operator : String) (right : Ast)
  | reassignmentExpression (left : String) (right : Ast)
  | ifExpression (condition : Ast) (consequence : Option Ast) (alternative : Option Ast)
  | whileExpression (condition : Ast) (body : Option Ast)
  | forLoop (iterator : String) (elements : List Ast) (ident : Option Ast) (body : Option Ast)
  | blockStatement (statements : List Ast)
  | functionLiteral (params : List String) (body : Option Ast)
  | callExpression (function : Ast) (arguments : List Ast)
  | mapFunction (function : Ast) (elements : List Ast)
  | arrayLiteral (elements : List Ast)
  | indexExpression (left : Ast) (index : Ast)
  | hashLiteral (pairs : List (Ast × Ast))
  | nilNode
  | nilLetStatement
deriving Repr

/-- strings.Join. -/
def stringsJoin (sep : String) : List String → String
  | [] => ""
  | [s] => s
  | s :: rest => s ++ sep ++ stringsJoin sep rest

/-- The String() methods of ast/ast.go, fuelled so that it computes by
`rfl` (the fuel only bounds nesting depth and every recursive call
decrements it).  `nilNode` prints as "" here; in Go a String() call
through a nil interface would panic, and no theorem below prints an
ill-formed tree.  A nil `*BlockStatement` likewise prints as "".  A
HashLiteral iterates a Go map whose order is unspecified; the model keeps
insertion order (no claim prints a hash literal). -/
def astString : Nat → Ast → String
  | 0, _ => ""
  | fuel + 1, .program stmts => String.join (stmts.map (astString fuel))
  | fuel + 1, .letStatement name value =>
    "let " ++ name ++ " = " ++ astString fuel value ++ ";"
  | fuel + 1, .returnStatement rv => "return " ++ astString fuel rv ++ ";"
  | fuel + 1, .expressionStatement e =>
    match e with
    | .nilNode => ""
    | e => astString fuel e
  | _ + 1, .identifier v => v
  | _ + 1, .integerLiteral lit _ => lit
  | _ + 1, .boolean lit _ => lit
  | _ + 1, .stringLiteral lit _ => lit
  | fuel + 1, .prefixExpression op right => "(" ++ op ++ astString fuel right ++ ")"
  | fuel + 1, .infixExpression left op right =>
    "(" ++ astString fuel left ++ " " ++ op ++ " " ++ astString fuel right ++ ")"
  | fuel + 1, .reassignmentExpression left right => left ++ " = " ++ astString fuel right
  | fuel + 1, .ifExpression c conseq alt =>
    "if" ++ astString fuel c ++ " " ++
      (match conseq with
       | some b => astString fuel b
       | none => "") ++
      (match alt with
       | some a => "else " ++ astString fuel a
       | none => "")
  | fuel + 1, .whileExpression c body =>
    "while " ++ astString fuel c ++ " \x7b " ++
      (match body with
       | some b => astString fuel b
       | none => "") ++ " \x7d"
  | fuel + 1, .forLoop it elems _ body =>
    "for " ++ it ++ " in " ++
      ("[" ++ stringsJoin " " (elems.map (astString fuel)) ++ "]") ++ " \x7b " ++
      (match body with
       | some b => astString fuel b
       | none => "") ++ " \x7d"
  | fuel + 1, .blockStatement stmts => String.join (stmts.map (astString fuel))
  | fuel + 1, .functionLiteral params body =>
    "fn" ++ "(" ++ stringsJoin ", " params ++ ") " ++
      (match body with
       | some b => astString fuel b
       | none => "")
  | fuel + 1, .callExpression f args =>
    astString fuel f ++ "(" ++ stringsJoin ", " (args.map (astString fuel)) ++ ")"
  | _ + 1, .mapFunction _ _ => "map!"
  | fuel + 1, .arrayLiteral elems =>
    "[" ++ stringsJoin ", " (elems.map (astString fuel)) ++ "]"
  | fuel + 1, .indexExpression left index =>
    "(" ++ astString fuel left ++ "[" ++ astString fuel index ++ "])"
  | fuel + 1, .hashLiteral pairs =>
    "\x7b" ++ stringsJoin ", " (pairs.map fun kv => astString fuel kv.1 ++ ":" ++ astString fuel kv.2) ++ "\x7d"
  | _ + 1, .nilNode => ""
  | _ + 1, .nilLetStatement => ""

/-!  The object package.  Its source file is missing from src/ (only
environment.go survives), so the value type is modelled from the spec
(§3 runtime values) and from how evaluator.go and evaluator_test.go use
it; the Type() strings below appear verbatim in the error messages that
evaluator_test.go asserts ("type mismatch: INTEGER + BOOLEAN", ...).  -/

/-- Modelled from the spec: the object package's value type (its file is
missing from src/).  `boolean`'s second field models pointer identity:
`true` marks the canonical singletons TRUE/FALSE declared at the top of
evaluator.go, `false` a fresh `&object.Boolean{...}` allocation.  The
evaluator's only pointer comparisons are against the canonical singletons
(in `evalBangOperatorExp`'s switch), so this flag decides them exactly.
Null needs no flag: the evaluator only ever uses the canonical NULL.
`returnValue`'s payload is an `Option` because Go stores a possibly-nil
`object.Object` in it. -/
inductive ObjV where
  | integer (value : Int)
  | boolean (value : Bool) (canonical : Bool)
  | null
  | strObj (value : String)
  | returnValue (value : Option ObjV)
  | error (message : String)
deriving Repr

/-- Modelled from the spec: object.Object.Type() (INTEGER_OBJ etc.). -/
def typeOf : ObjV → String
  | .integer _ => "INTEGER"
  | .boolean _ _ => "BOOLEAN"
  | .null => "NULL"
  | .strObj _ => "STRING"
  | .returnValue _ => "RETURN_VALUE"
  | .error _ => "ERROR"

/-- evaluator.go: the canonical singleton `NULL = &object.Null{}`. -/
def NULL : ObjV := .null

/-- evaluator.go: the canonical singleton `TRUE = &object.Boolean{Value: true}`. -/
def TRUE : ObjV := .boolean true true

/-- evaluator.go: the canonical singleton `FALSE = &object.Boolean{Value: false}`. -/
def FALSE : ObjV := .boolean false true

/-- A Go `object.Object` variable: a possibly-nil interface value. -/
abbrev GoObj := Option ObjV

/-- object/environment.go: a store plus an optional enclosing scope.  The
Go store is a `map[string]Object`; an association list with
overwrite-in-place models its get/set exactly (no code iterates it). -/
inductive Environment where
  | mk (store : List (String × GoObj)) (outer : Option Environment)

/-- Lookup in the raw store (Go `e.store[name]`); `none` is `ok = false`. -/
def storeGet : List (String × GoObj) → String → Option GoObj
  | [], _ => none
  | (k, v) :: rest, name => if k = name then some v else storeGet rest name

/-- Overwrite-or-add in the raw store (Go `e.store[name] = val`). -/
def storeSet : List (String × GoObj) → String → GoObj → List (String × GoObj)
  | [], name, val => [(name, val)]
  | (k, v) :: rest, name, val =>
    if k = name then (name, val) :: rest else (k, v) :: storeSet rest name val

/-- environment.go `Get`: the current scope, then the outer scope. -/
def envGet : Environment → String → Option GoObj
  | .mk store outer, name =>
    match storeGet store name with
    | some v => some v
    | none =>
      match outer with
      | some o => envGet o name
      | none => none

/-- environment.go `Set`: always writes the innermost store. -/
def envSet : Environment → String → GoObj → Environment
  | .mk store outer, name, val => .mk (storeSet store name val) outer

/-- environment.go `NewEnvironment`. -/
def NewEnvironment : Environment := .mk [] none

/-- Go's int64 two's-complement wrap-around, applied to every arithmetic
result the evaluator computes. -/
def wrap64 (x : Int) : Int :=
  (x + 2 ^ 63).emod (2 ^ 64) - 2 ^ 63

/-- evaluator.go `newError` (fmt.Sprintf spelled as concatenation at each
call site below). -/
def newError (msg : String) : ObjV := .error msg

/-- evaluator.go `isError`: nil-safe check for an Error object. -/
def isError (obj : GoObj) : Bool :=
  match obj with
  | some v => typeOf v = "ERROR"
  | none => false

/-- evaluator.go `evalBangOperatorExp`.  The Go switch compares the
operand against the canonical singletons by pointer; a fresh (non-canonical)
Boolean matches none of the cases and falls to the default. -/
def evalBangOperatorExp (exp : GoObj) : ObjV :=
  match exp with
  | some (.boolean true true) => FALSE
  | some (.boolean false true) => TRUE
  | some .null => TRUE
  | _ => FALSE

/-- evaluator.go `evalMinusOperatorExp`; `none` is the Go panic on a nil
operand's `.Type()` call. -/
def evalMinusOperatorExp (exp : GoObj) : Option ObjV :=
  match exp with
  | none => none
  | some v =>
    if typeOf v ≠ "INTEGER" then some (newError ("unknown operator: -" ++ typeOf v))
    else
      match v with
      | .integer value => some (.integer (wrap64 (-value)))
      | _ => some (newError ("unknown operator: -" ++ typeOf v))

/-- evaluator.go `evalPrefixExpression`; the default branch formats
`right.Type()`, which panics (`none`) on a nil operand. -/
def evalPrefixExpression (op : String) (right : GoObj) : Option ObjV :=
  if op = "!" then some (evalBangOperatorExp right)
  else if op = "-" then evalMinusOperatorExp right
  else
    match right with
    | none => none
    | some v => some (newError ("unknown operator: " ++ op ++ typeOf v))

/-- evaluator.go `evalInfixExpression`.  `none` is a Go panic: a nil
operand's `.Type()` call, or integer division by zero.  Note every
Boolean result is a fresh `&object.Boolean{...}` allocation — the
`canonical` flag is `false`, not the singletons TRUE/FALSE. -/
def evalInfixExpression (op : String) (left right : GoObj) : Option ObjV :=
  match left, right with
  | none, _ => none
  | _, none => none
  | some l, some r =>
    if typeOf l ≠ typeOf r then
      some (newError ("type mismatch: " ++ typeOf l ++ " " ++ op ++ " " ++ typeOf r))
    else if typeOf l = "BOOLEAN" && typeOf r = "BOOLEAN" then
      match l, r with
      | .boolean lv _, .boolean rv _ =>
        if op = "==" then some (.boolean (lv == rv) false)
        else if op = "!=" then some (.boolean (lv != rv) false)
        else some (newError ("unknown operator: " ++ typeOf l ++ " " ++ op ++ " " ++ typeOf r))
      | _, _ => some (newError ("unknown operator: " ++ typeOf l ++ " " ++ op ++ " " ++ typeOf r))
    else
      match l, r with
      | .integer lv, .integer rv =>
        if op = "+" then some (.integer (wrap64 (lv + rv)))
        else if op = "-" then some (.integer (wrap64 (lv - rv)))
        else if op = "*" then some (.integer (wrap64 (lv * rv)))
        else if op = "/" then
          if rv = 0 then none else some (.integer (wrap64 (Int.tdiv lv rv)))
        else if op = "<" then some (.boolean (decide (lv < rv)) false)
        else if op = ">" then some (.boolean (decide (lv > rv)) false)
        else if op = "==" then some (.boolean (lv == rv) false)
        else if op = "!=" then some (.boolean (lv != rv) false)
        else some (newError ("unknown operator: " ++ typeOf l ++ " " ++ op ++ " " ++ typeOf r))
      | _, _ => some (newError ("unsupported type: " ++ typeOf l))

/-- evaluator.go `evalIdentifier`. -/
def evalIdentifier (name : String) (env : Environment) : GoObj :=
  match envGet env name with
  | some val => val
  | none => some (newError ("identifier not found: " ++ name))

/-!  evaluator.go `Eval` and its two statement loops.  The Go functions
are mutually recursive through the AST; the model adds fuel (first
argument) bounding the recursion depth so everything computes by `rfl`.
Every function spends one unit per step, so the recursion is structural
on the fuel; exhausted fuel is `none`, distinct from every real result. -/

mutual

/-- evaluator.go `Eval` (the environment-based version, lines 16–68).
Returns `some (result, env)` where `result : GoObj` is the possibly-nil
Go interface value, or `none` for a Go panic / exhausted fuel.  The final
catch-all `return NULL` covers every node variant without a case,
including a nil interface node; the typed-nil `*ast.LetStatement` the
parser can emit matches the LetStatement case in Go and dereferences nil,
hence panics. -/
def Eval : Nat → Ast → Environment → Option (GoObj × Environment)
  | 0, _, _ => none
  | fuel + 1, node, env =>
    match node with
    | .program stmts => evalProgramLoop fuel stmts none env
    | .letStatement name value =>
      match Eval fuel value env with
      | none => none
      | some (val, env1) =>
        if isError val then some (val, env1)
        else some (some NULL, envSet env1 name val)
    | .identifier name => some (evalIdentifier name env, env)
    | .expressionStatement e => Eval fuel e env
    | .integerLiteral _ v => some (some (.integer v), env)
    | .boolean _ b => some (some (if b then TRUE else FALSE), env)
    | .prefixExpression op right =>
      match Eval fuel right env with
      | none => none
      | some (r, env1) =>
        if isError r then some (r, env1)
        else
          match evalPrefixExpression op r with
          | none => none
          | some res => some (some res, env1)
    | .infixExpression left op right =>
      match Eval fuel right env with
      | none => none
      | some (r, env1) =>
        if isError r then some (r, env1)
        else
          match Eval fuel left env1 with
          | none => none
          | some (l, env2) =>
            if isError l then some (l, env2)
            else
              match evalInfixExpression op l r with
              | none => none
              | some res => some (some res, env2)
    | .blockStatement stmts => evalBlockLoop fuel stmts none env
    | .ifExpression c conseq alt => evalIfExpression fuel c conseq alt env
    | .returnStatement rv =>
      match Eval fuel rv env with
      | none => none
      | some (val, env1) =>
        if isError val then some (val, env1)
        else some (some (.returnValue val), env1)
    | .nilLetStatement => none
    | _ => some (some NULL, env)

/-- evaluator.go `evalProgram` (lines 70–84), with the loop's running
`result` made explicit (it starts as nil).  The first ReturnValue is
unwrapped; then the error check calls `result.Type()`, which panics
(`none`) if the statement evaluated to nil. -/
def evalProgramLoop : Nat → List Ast → GoObj → Environment → Option (GoObj × Environment)
  | _, [], result, env => some (result, env)
  | 0, _ :: _, _, _ => none
  | fuel + 1, s :: rest, _, env =>
    match Eval fuel s env with
    | none => none
    | some (result, env1) =>
      match result with
      | some (.returnValue v) => some (v, env1)
      | none => none
      | some v =>
        if typeOf v = "ERROR" then some (some v, env1)
        else evalProgramLoop fuel rest (some v) env1

/-- evaluator.go `evalBlockStatement` (lines 89–99): same loop but with a
nil-safe check and no unwrapping — a ReturnValue or Error is returned as
is, anything else lets the loop continue. -/
def evalBlockLoop : Nat → List Ast → GoObj → Environment → Option (GoObj × Environment)
  | _, [], result, env => some (result, env)
  | 0, _ :: _, _, _ => none
  | fuel + 1, s :: rest, _, env =>
    match Eval fuel s env with
    | none => none
    | some (result, env1) =>
      match result with
      | some v =>
        if typeOf v = "RETURN_VALUE" || typeOf v = "ERROR" then some (some v, env1)
        else evalBlockLoop fuel rest (some v) env1
      | none => evalBlockLoop fuel rest none env1

/-- evaluator.go `evalIfExpression` (lines 216–238, the author's own
version).  An error condition propagates; a Boolean picks the branch by
its value; an Integer always takes the consequence; everything else —
and a chosen branch that is a nil pointer — yields NULL.  A nil condition
reaches `cond.Type()` and panics. -/
def evalIfExpression :
    Nat → Ast → Option Ast → Option Ast → Environment → Option (GoObj × Environment)
  | 0, _, _, _, _ => none
  | fuel + 1, c, conseq, alt, env =>
    match Eval fuel c env with
    | none => none
    | some (cond, env1) =>
      if isError cond then some (cond, env1)
      else
        match cond with
        | none => none
        | some cv =>
          match cv with
          | .boolean b _ =>
            if b then
              match conseq with
              | some blk => Eval fuel blk env1
              | none => some (some NULL, env1)
            else
              match alt with
              | some blk => Eval fuel blk env1
              | none => some (some NULL, env1)
          | .integer _ =>
            match conseq with
            | some blk => Eval fuel blk env1
            | none => some (some NULL, env1)
          | _ => some (some NULL, env1)

end

/-- evaluator.go `evalProgram`'s entry: the loop with result starting nil. -/
def evalProgram (fuel : Nat) (stmts : List Ast) (env : Environment) :
    Option (GoObj × Environment) :=
  evalProgramLoop fuel stmts none env

example :
    Eval 10 (.program [.expressionStatement (.infixExpression (.integerLiteral "1" 1) "<" (.integerLiteral "2" 2))]) NewEnvironment
      = some (some (.boolean true false), NewEnvironment) := by rfl

example :
    Eval 10 (.program [.letStatement "a" (.integerLiteral "5" 5), .expressionStatement (.identifier "a")]) NewEnvironment
      = some (some (.integer 5), .mk [("a", some (.integer 5))] none) := by rfl

/-!  parser/parser.go (the full Pratt parser; the version the claims cite,
lines 199–778 of the concatenated file).  The parser pulls tokens from
the lexer one at a time; the model carries the not-yet-consumed token
list, with `pullToken` standing for `p.l.NextToken()` (a drained lexer
yields EOF tokens forever, hence the EOF default).  The registration
tables built in `New` become if-chains over the same token kinds in
`parseExpression`/`parseExpressionLoop`. -/

/-- The parser's four mutable fields (the two dispatch tables are encoded
as the fixed if-chains below, exactly the registrations `New` makes). -/
structure Parser where
  rest : List Token
  curToken : Token
  peekToken : Token
  errors : List String
deriving Repr, DecidableEq

/-- `p.l.NextToken()`: the next token of the stream, EOF forever once
drained. -/
def pullToken : List Token → Token × List Token
  | [] => (⟨"EOF", ""⟩, [])
  | t :: ts => (t, ts)

/-- The comment-skipping loop inside parser.go `nextToken` (lines
260–271): while the current token is a COMMENT, shift peek into cur and
pull a fresh peek.  The empty-stream case unrolls the final at-most-two
iterations against the lexer's perpetual EOF. -/
def skipComments : Token → Token → List Token → Token × Token × List Token
  | cur, pk, t :: ts =>
    if cur.ttype = "COMMENT" then skipComments pk t ts else (cur, pk, t :: ts)
  | cur, pk, [] =>
    if cur.ttype = "COMMENT" then
      if pk.ttype = "COMMENT" then (⟨"EOF", ""⟩, ⟨"EOF", ""⟩, [])
      else (pk, ⟨"EOF", ""⟩, [])
    else (cur, pk, [])

/-- parser.go `nextToken`: advance cur/peek, transparently skipping
COMMENT tokens. -/
def nextToken (p : Parser) : Parser :=
  let cur := p.peekToken
  let pr := pullToken p.rest
  let s := skipComments cur pr.1 pr.2
  { p with curToken := s.1, peekToken := s.2.1, rest := s.2.2 }

/-- parser.go `New`: a fresh parser advanced twice so cur and peek are
set (Go's zero Token is two empty strings). -/
def newParser (toks : List Token) : Parser :=
  nextToken (nextToken { rest := toks, curToken := ⟨"", ""⟩, peekToken := ⟨"", ""⟩, errors := [] })

/-- parser.go `curTokenIs`. -/
def curTokenIs (p : Parser) (t : String) : Bool := p.curToken.ttype = t

/-- parser.go `peekTokenIs`. -/
def peekTokenIs (p : Parser) (t : String) : Bool := p.peekToken.ttype = t

/-- parser.go `peekError`. -/
def peekError (p : Parser) (t : String) : Parser :=
  { p with errors :=
      p.errors ++ ["expected next token to be " ++ t ++ ", got " ++ p.peekToken.ttype ++ " instead"] }

/-- parser.go `expectPeek`: advance on a match, record an error if not. -/
def expectPeek (p : Parser) (t : String) : Bool × Parser :=
  if peekTokenIs p t then (true, nextToken p) else (false, peekError p t)

/-- parser.go's `precedences` table plus the LOWEST default (the numeric
levels of the `iota` block: LOWEST 1, EQUALS 2, LESSGREATER 3, SUM 4,
PRODUCT 5, PREFIX 6, CALL 7, INDEX 8). -/
def precedenceOf (t : String) : Nat :=
  if t = "==" then 2
  else if t = "!=" then 2
  else if t = "<" then 3
  else if t = ">" then 3
  else if t = "+" then 4
  else if t = "-" then 4
  else if t = "/" then 5
  else if t = "*" then 5
  else if t = "(" then 7
  else if t = "[" then 8
  else 1

/-- parser.go `peekPrecedence`. -/
def peekPrecedence (p : Parser) : Nat := precedenceOf p.peekToken.ttype

/-- parser.go `curPrecedence`. -/
def curPrecedence (p : Parser) : Nat := precedenceOf p.curToken.ttype

/-- strconv.ParseInt(s, 0, 64) restricted to the digit-only literals the
lexer produces: a leading `0` on a longer literal selects octal (a digit
8 or 9 is then a syntax error: value 0, ok false), otherwise decimal; a
value past MaxInt64 is a range error clamped to MaxInt64 (ok false). -/
def digitsVal (base acc : Nat) : List Char → Option Nat
  | [] => some acc
  | c :: cs =>
    let d := c.toNat - '0'.toNat
    if d < base then digitsVal base (acc * base + d) cs else none

/-- strconv.ParseInt(s, 0, 64) on a digit run: (value, ok). -/
def parseIntLit (s : String) : Int × Bool :=
  let cs := s.toList
  let parsed : Option Nat :=
    match cs with
    | '0' :: (c :: rest) => digitsVal 8 0 (c :: rest)
    | _ => digitsVal 10 0 cs
  match parsed with
  | none => (0, false)
  | some v => if v ≤ 2 ^ 63 - 1 then ((v : Int), true) else (((2 : Int) ^ 63 - 1), false)

/-!  The mutually recursive parse functions.  Fuel is the first argument
of every function and every mutual call decrements it, so the block is
structural on the fuel and computes by `rfl`; `none` is exhausted fuel
only — a Go panic inside the parser (the type assertion in
`parseForLoop`) is also rendered `none`, and no claim below goes near it.
A Go `return nil` for an expression is the `Ast.nilNode` value; a failed
`parseLetStatement` is `Ast.nilLetStatement` (Go's typed-nil
`*ast.LetStatement`, which `ParseProgram` appends, because a non-nil
interface holding a nil pointer passes its `stmt != nil` test). -/

mutual

/-- parser.go `parseStatement`: `let` and `return` are statements,
everything else is an expression statement. -/
def parseStatement : Nat → Parser → Option (Ast × Parser)
  | 0, _ => none
  | fuel + 1, p =>
    if curTokenIs p "LET" then parseLetStatement fuel p
    else if curTokenIs p "RETURN" then parseReturnStatement fuel p
    else parseExpressionStatement fuel p

/-- parser.go `parseLetStatement` (the full version: it parses the
right-hand side). -/
def parseLetStatement : Nat → Parser → Option (Ast × Parser)
  | 0, _ => none
  | fuel + 1, p =>
    let e1 := expectPeek p "IDENT"
    if !e1.1 then some (.nilLetStatement, e1.2)
    else
      let p1 := e1.2
      let name := p1.curToken.literal
      let e2 := expectPeek p1 "="
      if !e2.1 then some (.nilLetStatement, e2.2)
      else
        let p3 := nextToken e2.2
        match parseExpression fuel 1 p3 with
        | none => none
        | some (value, p4) =>
          let p5 := if peekTokenIs p4 ";" then nextToken p4 else p4
          some (.letStatement name value, p5)

/-- parser.go `parseReturnStatement`. -/
def parseReturnStatement : Nat → Parser → Option (Ast × Parser)
  | 0, _ => none
  | fuel + 1, p =>
    let p1 := nextToken p
    match parseExpression fuel 1 p1 with
    | none => none
    | some (rv, p2) =>
      let p3 := if curTokenIs p2 ";" then nextToken p2 else p2
      some (.returnStatement rv, p3)

/-- parser.go `parseExpressionStatement`. -/
def parseExpressionStatement : Nat → Parser → Option (Ast × Parser)
  | 0, _ => none
  | fuel + 1, p =>
    match parseExpression fuel 1 p with
    | none => none
    | some (e, p1) =>
      let p2 := if peekTokenIs p1 ";" then nextToken p1 else p1
      some (.expressionStatement e, p2)

/-- parser.go `parseExpression`: dispatch on the prefix table (the exact
registrations of `New`), then run the precedence loop. -/
def parseExpression : Nat → Nat → Parser → Option (Ast × Parser)
  | 0, _, _ => none
  | fuel + 1, precedence, p =>
    let t := p.curToken.ttype
    let dispatched : Option (Option (Ast × Parser)) :=
      if t = "IDENT" then some (parseIdentifier fuel p)
      else if t = "INT" then some (parseInteger fuel p)
      else if t = "STRING" then some (parseString fuel p)
      else if t = "TRUE" then some (parseBoolean fuel p)
      else if t = "FALSE" then some (parseBoolean fuel p)
      else if t = "!" then some (parsePrefixExpression fuel p)
      else if t = "-" then some (parsePrefixExpression fuel p)
      else if t = "(" then some (parseGroupedExpression fuel p)
      else if t = "IF" then some (parseIfExpression fuel p)
      else if t = "FUNCTION" then some (parseFunctionExpression fuel p)
      else if t = "[" then some (parseArrayLiteral fuel p)
      else if t = "\x7b" then some (parseHashLiteral fuel p)
      else if t = "MAP" then some (parseMapFunction fuel p)
      else if t = "WHILE" then some (parseWhileExpression fuel p)
      else if t = "FOR" then some (parseForLoop fuel p)
      else none
    match dispatched with
    | none =>
      some (.nilNode,
        { p with errors := p.errors ++ ["no prefix parse function found for " ++ t] })
    | some none => none
    | some (some (leftExp, p1)) => parseExpressionLoop fuel precedence leftExp p1

/-- The `for` loop inside parser.go `parseExpression`: while the peek
token is not `;` and binds tighter than `precedence`, dispatch on the
infix table (the exact registrations of `New`; a miss returns the
expression built so far). -/
def parseExpressionLoop : Nat → Nat → Ast → Parser → Option (Ast × Parser)
  | 0, _, _, _ => none
  | fuel + 1, precedence, leftExp, p =>
    if !peekTokenIs p ";" && precedence < peekPrecedence p then
      let t := p.peekToken.ttype
      if t = "+" || t = "-" || t = "/" || t = "*" || t = "==" || t = "!=" || t = "<" || t = ">" then
        match parseInfixExpression fuel leftExp (nextToken p) with
        | none => none
        | some (e, p1) => parseExpressionLoop fuel precedence e p1
      else if t = "(" then
        match parseCallExpression fuel leftExp (nextToken p) with
        | none => none
        | some (e, p1) => parseExpressionLoop fuel precedence e p1
      else if t = "[" then
        match parseIndexExpression fuel leftExp (nextToken p) with
        | none => none
        | some (e, p1) => parseExpressionLoop fuel precedence e p1
      else some (leftExp, p)
    else some (leftExp, p)

/-- parser.go `parseIdentifier`: a plain identifier, unless the peek
token is `=`, which makes it a reassignment. -/
def parseIdentifier : Nat → Parser → Option (Ast × Parser)
  | 0, _ => none
  | fuel + 1, p =>
    if !peekTokenIs p "=" then some (.identifier p.curToken.literal, p)
    else
      let leftName := p.curToken.literal
      let p1 := nextToken p
      let p2 := nextToken p1
      match parseExpression fuel 1 p2 with
      | none => none
      | some (right, p3) => some (.reassignmentExpression leftName right, p3)

/-- parser.go `parseInteger` (strconv.ParseInt with base 0; a failure
records "cannot parse … as integer" and still yields the node). -/
def parseInteger : Nat → Parser → Option (Ast × Parser)
  | 0, _ => none
  | _ + 1, p =>
    let lit := p.curToken.literal
    let vo := parseIntLit lit
    let p1 :=
      if vo.2 then p
      else { p with errors := p.errors ++ ["cannot parse " ++ lit ++ " as integer"] }
    some (.integerLiteral lit vo.1, p1)

/-- parser.go `parseString`. -/
def parseString : Nat → Parser → Option (Ast × Parser)
  | 0, _ => none
  | _ + 1, p => some (.stringLiteral p.curToken.literal p.curToken.literal, p)

/-- parser.go `parseBoolean`. -/
def parseBoolean : Nat → Parser → Option (Ast × Parser)
  | 0, _ => none
  | _ + 1, p => some (.boolean p.curToken.literal (curTokenIs p "TRUE"), p)

/-- parser.go `parsePrefixExpression`: `!` or `-` applied at PREFIX
precedence (6). -/
def parsePrefixExpression : Nat → Parser → Option (Ast × Parser)
  | 0, _ => none
  | fuel + 1, p =>
    let op := p.curToken.literal
    let p1 := nextToken p
    match parseExpression fuel 6 p1 with
    | none => none
    | some (right, p2) => some (.prefixExpression op right, p2)

/-- parser.go `parseInfixExpression`: right operand at the operator's own
precedence (left associativity). -/
def parseInfixExpression : Nat → Ast → Parser → Option (Ast × Parser)
  | 0, _, _ => none
  | fuel + 1, leftExp, p =>
    let op := p.curToken.literal
    let precedence := curPrecedence p
    let p1 := nextToken p
    match parseExpression fuel precedence p1 with
    | none => none
    | some (right, p2) => some (.infixExpression leftExp op right, p2)

/-- parser.go `parseGroupedExpression`. -/
def parseGroupedExpression : Nat → Parser → Option (Ast × Parser)
  | 0, _ => none
  | fuel + 1, p =>
    let p1 := nextToken p
    match parseExpression fuel 1 p1 with
    | none => none
    | some (e, p2) =>
      let e1 := expectPeek p2 ")"
      if e1.1 then some (e, e1.2) else some (.nilNode, e1.2)

/-- parser.go `parseIfExpression`. -/
def parseIfExpression : Nat → Parser → Option (Ast × Parser)
  | 0, _ => none
  | fuel + 1, p =>
    let e1 := expectPeek p "("
    if !e1.1 then some (.nilNode, e1.2)
    else
      let p2 := nextToken e1.2
      match parseExpression fuel 1 p2 with
      | none => none
      | some (cond, p3) =>
        let e2 := expectPeek p3 ")"
        if !e2.1 then some (.nilNode, e2.2)
        else
          let e3 := expectPeek e2.2 "\x7b"
          if !e3.1 then some (.nilNode, e3.2)
          else
            match parseBlockStatement fuel e3.2 with
            | none => none
            | some (conseq, p6) =>
              if peekTokenIs p6 "ELSE" then
                let p7 := nextToken p6
                let e4 := expectPeek p7 "\x7b"
                if !e4.1 then some (.nilNode, e4.2)
                else
                  match parseBlockStatement fuel e4.2 with
                  | none => none
                  | some (alt, p9) =>
                    some (.ifExpression cond (some conseq) (some alt), p9)
              else some (.ifExpression cond (some conseq) none, p6)

/-- parser.go `parseWhileExpression`. -/
def parseWhileExpression : Nat → Parser → Option (Ast × Parser)
  | 0, _ => none
  | fuel + 1, p =>
    let e1 := expectPeek p "("
    if !e1.1 then some (.nilNode, e1.2)
    else
      let p2 := nextToken e1.2
      match parseExpression fuel 1 p2 with
      | none => none
      | some (cond, p3) =>
        let e2 := expectPeek p3 ")"
        if !e2.1 then some (.nilNode, e2.2)
        else
          let e3 := expectPeek e2.2 "\x7b"
          if !e3.1 then some (.nilNode, e3.2)
          else
            match parseBlockStatement fuel e3.2 with
            | none => none
            | some (body, p6) => some (.whileExpression cond (some body), p6)

/-- parser.go `parseForLoop`.  The Go code type-asserts
`parseIdentifier()` to `*ast.Identifier`; on a reassignment that
assertion panics, rendered `none`. -/
def parseForLoop : Nat → Parser → Option (Ast × Parser)
  | 0, _ => none
  | fuel + 1, p =>
    let e1 := expectPeek p "IDENT"
    if !e1.1 then some (.nilNode, e1.2)
    else
      match parseIdentifier fuel e1.2 with
      | none => none
      | some (.identifier it, p2) =>
        let e2 := expectPeek p2 "IN"
        if !e2.1 then some (.nilNode, e2.2)
        else
          let p3 := nextToken e2.2
          if curTokenIs p3 "[" then
            match parseExpressionList fuel "]" p3 with
            | none => none
            | some (elems, p4) =>
              match parseBlockStatement fuel (nextToken p4) with
              | none => none
              | some (body, p6) => some (.forLoop it elems none (some body), p6)
          else
            match parseIdentifier fuel p3 with
            | none => none
            | some (idExp, p4) =>
              match parseBlockStatement fuel (nextToken p4) with
              | none => none
              | some (body, p6) => some (.forLoop it [] (some idExp) (some body), p6)
      | some _ => none

/-- parser.go `parseBlockStatement`: statements until `}` or EOF. -/
def parseBlockStatement : Nat → Parser → Option (Ast × Parser)
  | 0, _ => none
  | fuel + 1, p => parseBlockLoop fuel [] (nextToken p)

/-- The statement loop of `parseBlockStatement`. -/
def parseBlockLoop : Nat → List Ast → Parser → Option (Ast × Parser)
  | 0, _, _ => none
  | fuel + 1, acc, p =>
    if curTokenIs p "\x7d" || curTokenIs p "EOF" then some (.blockStatement acc, p)
    else
      match parseStatement fuel p with
      | none => none
      | some (stmt, p1) => parseBlockLoop fuel (acc ++ [stmt]) (nextToken p1)

/-- parser.go `parseFunctionExpression`. -/
def parseFunctionExpression : Nat → Parser → Option (Ast × Parser)
  | 0, _ => none
  | fuel + 1, p =>
    let e1 := expectPeek p "("
    if !e1.1 then some (.nilNode, e1.2)
    else
      match fnParamsLoop fuel [] (nextToken e1.2) with
      | none => none
      | some (params, p2) =>
        let e2 := expectPeek p2 "\x7b"
        if !e2.1 then some (.nilNode, e2.2)
        else
          match parseBlockStatement fuel e2.2 with
          | none => none
          | some (body, p4) => some (.functionLiteral params (some body), p4)

/-- The parameter loop of `parseFunctionExpression`: until `)` or EOF,
skipping commas, collecting identifiers. -/
def fnParamsLoop : Nat → List String → Parser → Option (List String × Parser)
  | 0, _, _ => none
  | fuel + 1, acc, p =>
    if curTokenIs p ")" || curTokenIs p "EOF" then some (acc, p)
    else if curTokenIs p "," then fnParamsLoop fuel acc (nextToken p)
    else fnParamsLoop fuel (acc ++ [p.curToken.literal]) (nextToken p)

/-- parser.go `parseCallExpression`. -/
def parseCallExpression : Nat → Ast → Parser → Option (Ast × Parser)
  | 0, _, _ => none
  | fuel + 1, fn, p =>
    match parseExpressionList fuel ")" p with
    | none => none
    | some (args, p1) => some (.callExpression fn args, p1)

/-- parser.go `parseArrayLiteral`. -/
def parseArrayLiteral : Nat → Parser → Option (Ast × Parser)
  | 0, _ => none
  | fuel + 1, p =>
    match parseExpressionList fuel "]" p with
    | none => none
    | some (elems, p1) => some (.arrayLiteral elems, p1)

/-- parser.go `parseExpressionList` (shared by calls and array literals);
a missing end token records an error and yields Go's nil slice, `[]`. -/
def parseExpressionList : Nat → String → Parser → Option (List Ast × Parser)
  | 0, _, _ => none
  | fuel + 1, endT, p =>
    if peekTokenIs p endT then some ([], nextToken p)
    else
      let p1 := nextToken p
      match parseExpression fuel 1 p1 with
      | none => none
      | some (e, p2) => parseExpressionListLoop fuel endT [e] p2

/-- The comma loop of `parseExpressionList`, then the end-token check. -/
def parseExpressionListLoop : Nat → String → List Ast → Parser → Option (List Ast × Parser)
  | 0, _, _, _ => none
  | fuel + 1, endT, acc, p =>
    if peekTokenIs p "," then
      let p1 := nextToken (nextToken p)
      match parseExpression fuel 1 p1 with
      | none => none
      | some (e, p2) => parseExpressionListLoop fuel endT (acc ++ [e]) p2
    else
      let e1 := expectPeek p endT
      if e1.1 then some (acc, e1.2) else some ([], e1.2)

/-- parser.go `parseIndexExpression`. -/
def parseIndexExpression : Nat → Ast → Parser → Option (Ast × Parser)
  | 0, _, _ => none
  | fuel + 1, leftExp, p =>
    let p1 := nextToken p
    match parseExpression fuel 1 p1 with
    | none => none
    | some (idx, p2) =>
      let e1 := expectPeek p2 "]"
      if e1.1 then some (.indexExpression leftExp idx, e1.2) else some (.nilNode, e1.2)

/-- parser.go `parseHashLiteral` (pairs kept in insertion order; the Go
map key is the AST node). -/
def parseHashLiteral : Nat → Parser → Option (Ast × Parser)
  | 0, _ => none
  | fuel + 1, p => parseHashLoop fuel [] (nextToken p)

/-- The pair loop of `parseHashLiteral`. -/
def parseHashLoop : Nat → List (Ast × Ast) → Parser → Option (Ast × Parser)
  | 0, _, _ => none
  | fuel + 1, acc, p =>
    if curTokenIs p "\x7d" || curTokenIs p "EOF" then some (.hashLiteral acc, p)
    else
      match parseExpression fuel 1 p with
      | none => none
      | some (key, p1) =>
        let e1 := expectPeek p1 ":"
        if !e1.1 then some (.nilNode, e1.2)
        else
          let p2 := nextToken e1.2
          match parseExpression fuel 1 p2 with
          | none => none
          | some (val, p3) =>
            let p4 := nextToken p3
            let p5 := if curTokenIs p4 "," then nextToken p4 else p4
            parseHashLoop fuel (acc ++ [(key, val)]) p5

/-- parser.go `parseMapFunction` (the expectPeek results are discarded,
exactly as the source discards them). -/
def parseMapFunction : Nat → Parser → Option (Ast × Parser)
  | 0, _ => none
  | fuel + 1, p =>
    let p1 := (expectPeek p "(").2
    let p2 := nextToken p1
    match parseExpression fuel 1 p2 with
    | none => none
    | some (fn, p3) =>
      let p4 := (expectPeek p3 ",").2
      let p5 := (expectPeek p4 "[").2
      match parseExpressionList fuel "]" p5 with
      | none => none
      | some (elems, p6) =>
        let p7 := (expectPeek p6 ")").2
        some (.mapFunction fn elems, p7)

end

/-- parser.go `ParseProgram`'s statement loop (every parsed statement is
appended: Go's `stmt != nil` also lets the typed-nil let through). -/
def parseProgramLoop : Nat → List Ast → Parser → Option (List Ast × Parser)
  | 0, _, _ => none
  | fuel + 1, acc, p =>
    if curTokenIs p "EOF" then some (acc, p)
    else
      match parseStatement fuel p with
      | none => none
      | some (stmt, p1) => parseProgramLoop fuel (acc ++ [stmt]) (nextToken p1)

/-- parser.go `ParseProgram`. -/
def ParseProgram (fuel : Nat) (p : Parser) : Option (Ast × Parser) :=
  match parseProgramLoop fuel [] p with
  | none => none
  | some (stmts, p1) => some (.program stmts, p1)

/-- End-to-end front end: lex then parse, with fuel ample for the input
(the parser makes at most a few calls per token). -/
def parseSource (s : String) : Option (Ast × Parser) :=
  ParseProgram (20 * s.length + 100) (newParser (tokens s))

example :
    (parseSource "-a * b").map (fun r => (astString 100 r.1, r.2.errors))
      = some ("((-a) * b)", []) := by rfl

example :
    (parseSource "a + b + c").map (fun r => (astString 100 r.1, r.2.errors))
      = some ("((a + b) + c)", []) := by rfl

set_option maxHeartbeats 1000000 in
example :
    (parseSource "3 + 4 * 5 == 3 * 1 + 4 * 5").map (fun r => (astString 100 r.1, r.2.errors))
      = some ("((3 + (4 * 5)) == ((3 * 1) + (4 * 5)))", []) := by rfl

/-- The full pipeline as main.go / the REPL drive it: lex, parse, then
`Eval` on the program with a fresh environment (callers inspect the
parser's errors first; the claims that use this check them explicitly). -/
def runProgram (s : String) : Option (GoObj × Environment) :=
  match parseSource s with
  | none => none
  | some (prog, _) => Eval (20 * s.length + 100) prog NewEnvironment

set_option maxHeartbeats 4000000 in
example : (runProgram "let i = 0; while (i < 3) \x7b let i = i + 1 \x7d i").map (·.1)
    = some (some (.integer 0)) := by rfl

example : (runProgram "5 + true;").map (·.1)
    = some (some (.error "type mismatch: INTEGER + BOOLEAN")) := by rfl

example : (runProgram "!(1 > 2)").map (·.1) = some (some FALSE) := by rfl

example : (runProgram "1 > 2").map (·.1) = some (some (.boolean false false)) := by rfl

example : (runProgram "1 / 0") = none := by rfl

/-- The AST of `if (10 > 1) { if (10 > 2) { return 10; } return 1; }`
(the nested-return program of evaluator_test.go's TestReturnStatements),
written out so the evaluator theorems compute on it directly. -/
def nestedReturnProgram : Ast :=
  .program
    [.expressionStatement
      (.ifExpression (.infixExpression (.integerLiteral "10" 10) ">" (.integerLiteral "1" 1))
        (some (.blockStatement
          [.expressionStatement
            (.ifExpression (.infixExpression (.integerLiteral "10" 10) ">" (.integerLiteral "2" 2))
              (some (.blockStatement [.returnStatement (.integerLiteral "10" 10)]))
              none),
           .returnStatement (.integerLiteral "1" 1)]))
        none)]

example : (Eval 100 nestedReturnProgram NewEnvironment).map (·.1)
    = some (some (.integer 10)) := by rfl

/-!  The claims.  -/

/-- C1.  The canonical-singleton invariant fails in the code: the infix
comparison operators of evalInfixExpression return freshly allocated
Boolean objects (`&object.Boolean{...}`), not the canonical TRUE/FALSE.
The theorem exhibits this at `1 < 2` / `1 > 2` and shows the observable
consequence: `!(1 > 2)` evaluates to FALSE (the fresh Boolean matches no
case of the bang operator's pointer switch), where the claimed invariant
would give TRUE. -/
theorem canonicalSingletonViolation :
    evalInfixExpression "<" (some (.integer 1)) (some (.integer 2))
        = some (.boolean true false) ∧
    ObjV.boolean true false ≠ TRUE ∧
    ObjV.boolean false false ≠ FALSE ∧
    (runProgram "1 > 2").map (·.1) = some (some (.boolean false false)) ∧
    (runProgram "!(1 > 2)").map (·.1) = some (some FALSE) := by
  refine ⟨rfl, ?_, ?_, rfl, rfl⟩
  · simp [TRUE]
  · simp [FALSE]

/-- C2.  Eval returns the canonical NULL for every node variant outside
its handled set: string/array/hash literals, index expressions, function
literals, call expressions, while expressions, for loops, map
expressions, and reassignments all fall through the switch to
`return NULL`, untouched and with the environment unchanged; and a let
statement whose right-hand side evaluates without error also falls out of
the switch to `return NULL` (after binding the name). -/
theorem evalUnhandledVariantsNull :
    (∀ fuel env lit v, Eval (fuel + 1) (.stringLiteral lit v) env = some (some NULL, env)) ∧
    (∀ fuel env elems, Eval (fuel + 1) (.arrayLiteral elems) env = some (some NULL, env)) ∧
    (∀ fuel env pairs, Eval (fuel + 1) (.hashLiteral pairs) env = some (some NULL, env)) ∧
    (∀ fuel env l i, Eval (fuel + 1) (.indexExpression l i) env = some (some NULL, env)) ∧
    (∀ fuel env ps b, Eval (fuel + 1) (.functionLiteral ps b) env = some (some NULL, env)) ∧
    (∀ fuel env f args, Eval (fuel + 1) (.callExpression f args) env = some (some NULL, env)) ∧
    (∀ fuel env c b, Eval (fuel + 1) (.whileExpression c b) env = some (some NULL, env)) ∧
    (∀ fuel env it el idn b, Eval (fuel + 1) (.forLoop it el idn b) env = some (some NULL, env)) ∧
    (∀ fuel env f el, Eval (fuel + 1) (.mapFunction f el) env = some (some NULL, env)) ∧
    (∀ fuel env n r, Eval (fuel + 1) (.reassignmentExpression n r) env = some (some NULL, env)) ∧
    (∀ fuel env name value val env1,
      Eval fuel value env = some (val, env1) → isError val = false →
      Eval (fuel + 1) (.letStatement name value) env
        = some (some NULL, envSet env1 name val)) := by
  refine ⟨fun _ _ _ _ => rfl, fun _ _ _ => rfl, fun _ _ _ => rfl, fun _ _ _ _ => rfl,
    fun _ _ _ _ => rfl, fun _ _ _ _ => rfl, fun _ _ _ _ => rfl, fun _ _ _ _ _ _ => rfl,
    fun _ _ _ _ => rfl, fun _ _ _ _ => rfl, ?_⟩
  intro fuel env name value val env1 h hem
  simp [Eval, h, hem]

/-- Witness for C2's let clause: `let x = 5` binds x and yields NULL. -/
theorem evalUnhandledVariantsNull_witness :
    Eval 2 (.letStatement "x" (.integerLiteral "5" 5)) NewEnvironment
      = some (some NULL, Environment.mk [("x", some (.integer 5))] none) :=
  evalUnhandledVariantsNull.2.2.2.2.2.2.2.2.2.2 1 NewEnvironment "x"
    (.integerLiteral "5" 5) (some (.integer 5)) NewEnvironment rfl rfl

/-- C3.  Return unwinding: a program stops at the first statement that
evaluates to a ReturnValue and returns the unwrapped inner value; a block
stops at the first ReturnValue or Error but returns the ReturnValue still
wrapped; a statement that is neither lets the program loop continue
left-to-right; and the nested-if return program from the source's own
tests unwinds past both blocks to yield Integer 10 at the program
boundary. -/
theorem returnUnwinding :
    (∀ fuel s rest acc env v env1,
      Eval fuel s env = some (some (.returnValue v), env1) →
      evalProgramLoop (fuel + 1) (s :: rest) acc env = some (v, env1)) ∧
    (∀ fuel s rest acc env v env1,
      Eval fuel s env = some (some (.returnValue v), env1) →
      evalBlockLoop (fuel + 1) (s :: rest) acc env = some (some (.returnValue v), env1)) ∧
    (∀ fuel s rest acc env m env1,
      Eval fuel s env = some (some (.error m), env1) →
      evalBlockLoop (fuel + 1) (s :: rest) acc env = some (some (.error m), env1)) ∧
    (∀ fuel s rest acc env v env1,
      Eval fuel s env = some (some v, env1) →
      typeOf v ≠ "RETURN_VALUE" → typeOf v ≠ "ERROR" →
      evalProgramLoop (fuel + 1) (s :: rest) acc env
        = evalProgramLoop fuel rest (some v) env1) ∧
    Eval 100 nestedReturnProgram NewEnvironment = some (some (.integer 10), NewEnvironment) := by
  refine ⟨?_, ?_, ?_, ?_, rfl⟩
  · intro fuel s rest acc env v env1 h
    simp [evalProgramLoop, h]
  · intro fuel s rest acc env v env1 h
    simp [evalBlockLoop, h, typeOf]
  · intro fuel s rest acc env m env1 h
    simp [evalBlockLoop, h, typeOf]
  · intro fuel s rest acc env v env1 h hr he
    cases v with
    | returnValue w => exact absurd rfl hr
    | error m => exact absurd rfl he
    | integer n => simp [evalProgramLoop, h, typeOf]
    | boolean b c => simp [evalProgramLoop, h, typeOf]
    | null => simp [evalProgramLoop, h, typeOf]
    | strObj w => simp [evalProgramLoop, h, typeOf]

/-- Witness for C3: a one-statement program whose statement is `return 10`
evaluates, through the program loop, to the unwrapped Integer 10. -/
theorem returnUnwinding_witness :
    evalProgramLoop 3 [.returnStatement (.integerLiteral "10" 10)] none NewEnvironment
      = some (some (.integer 10), NewEnvironment) :=
  returnUnwinding.1 2 (.returnStatement (.integerLiteral "10" 10)) [] none NewEnvironment
    (some (.integer 10)) NewEnvironment rfl

/-- C4 counterexample.  The claim says `!x` yields TRUE whenever x is a
Boolean with value false; but `1 > 2` evaluates to a freshly allocated
Boolean(false), and `!(1 > 2)` evaluates to FALSE — the fresh Boolean
matches no case of the bang operator's pointer switch. -/
theorem bangValueCounterexample :
    (runProgram "1 > 2").map (·.1) = some (some (.boolean false false)) ∧
    evalBangOperatorExp (some (.boolean false false)) = FALSE ∧
    (runProgram "!(1 > 2)").map (·.1) = some (some FALSE) ∧
    FALSE ≠ TRUE := by
  refine ⟨rfl, rfl, rfl, ?_⟩
  simp [TRUE, FALSE]

/-- C4 as amended: the bang operator's switch compares by pointer
identity, so it maps the canonical TRUE to FALSE, the canonical FALSE to
TRUE, NULL to TRUE, and everything else — integers, strings, errors, a
nil operand, and non-canonical Boolean objects such as those the
comparison operators return — to FALSE. -/
theorem bangOperatorCanonical :
    evalBangOperatorExp (some TRUE) = FALSE ∧
    evalBangOperatorExp (some FALSE) = TRUE ∧
    evalBangOperatorExp (some NULL) = TRUE ∧
    (∀ x : GoObj, x ≠ some TRUE → x ≠ some FALSE → x ≠ some NULL →
      evalBangOperatorExp x = FALSE) := by
  refine ⟨rfl, rfl, rfl, ?_⟩
  intro x h1 h2 h3
  match x with
  | none => rfl
  | some (.integer _) => rfl
  | some (.boolean true true) => exact absurd rfl h1
  | some (.boolean false true) => exact absurd rfl h2
  | some (.boolean true false) => rfl
  | some (.boolean false false) => rfl
  | some .null => exact absurd rfl h3
  | some (.strObj _) => rfl
  | some (.returnValue _) => rfl
  | some (.error _) => rfl

/-- Witness for C4's amended theorem: `!5` is FALSE. -/
theorem bangOperatorCanonical_witness :
    evalBangOperatorExp (some (.integer 5)) = FALSE :=
  bangOperatorCanonical.2.2.2 (some (.integer 5)) (by simp [TRUE]) (by simp [FALSE])
    (by simp [NULL])

/-- C5.  Infix type agreement: whenever the two operand values have
different kinds, evalInfixExpression returns the type-mismatch error
built from the two kind names and the operator, before any operator
dispatch; in particular the program `5 + true;` evaluates to
Error("type mismatch: INTEGER + BOOLEAN"). -/
theorem infixTypeMismatch :
    (∀ (l r : ObjV) (op : String), typeOf l ≠ typeOf r →
      evalInfixExpression op (some l) (some r)
        = some (.error ("type mismatch: " ++ typeOf l ++ " " ++ op ++ " " ++ typeOf r))) ∧
    (runProgram "5 + true;").map (·.1)
      = some (some (.error "type mismatch: INTEGER + BOOLEAN")) := by
  refine ⟨?_, rfl⟩
  intro l r op h
  simp [evalInfixExpression, newError, h]

/-- Witness for C5: Integer 5 plus the canonical TRUE is the mismatch
error the test suite expects. -/
theorem infixTypeMismatch_witness :
    evalInfixExpression "+" (some (.integer 5)) (some TRUE)
      = some (.error "type mismatch: INTEGER + BOOLEAN") :=
  infixTypeMismatch.1 (.integer 5) TRUE "+" (by simp [TRUE, typeOf])

/-- C6.  Division by zero: the code divides the raw int64 values, so an
Integer divided by Integer 0 panics the Go runtime (modelled `none`) —
it does not produce an Error value as the claim demands; for a nonzero
divisor it produces the wrapped 64-bit truncated quotient. -/
theorem divisionByZeroPanics :
    runProgram "1 / 0" = none ∧
    evalInfixExpression "/" (some (.integer 1)) (some (.integer 0)) = none ∧
    (∀ a b : Int, b ≠ 0 →
      evalInfixExpression "/" (some (.integer a)) (some (.integer b))
        = some (.integer (wrap64 (Int.tdiv a b)))) := by
  refine ⟨rfl, rfl, ?_⟩
  intro a b h
  simp [evalInfixExpression, typeOf, h]

/-- Witness for C6's nonzero-divisor clause: 7 / 2 is 3. -/
theorem divisionByZeroPanics_witness :
    evalInfixExpression "/" (some (.integer 7)) (some (.integer 2))
      = some (.integer 3) := by
  have h := divisionByZeroPanics.2.2 7 2 (by decide)
  rw [h]
  rfl

/-- C7 counterexample.  The claim says a condition value that is neither
Boolean nor Integer makes the if-expression yield Null; but an Error
condition propagates: `if (foo) { 1 }` with unbound foo evaluates to the
identifier-not-found error, not Null. -/
theorem ifErrorConditionCounterexample :
    Eval 10
      (.ifExpression (.identifier "foo")
        (some (.blockStatement [.expressionStatement (.integerLiteral "1" 1)])) none)
      NewEnvironment
      = some (some (.error "identifier not found: foo"), NewEnvironment) ∧
    ObjV.error "identifier not found: foo" ≠ NULL := by
  refine ⟨rfl, ?_⟩
  simp [NULL]

/-- C7 as amended: once the condition has evaluated, an Error condition
propagates as the if-expression's result; a Boolean condition picks the
consequence or alternative by its value; an Integer condition always
takes the consequence; every other condition value yields NULL; and a
chosen branch that is absent (a nil block pointer) yields NULL. -/
theorem ifTruthinessAmended :
    ∀ fuel c conseq alt env cond env1,
      Eval fuel c env = some (cond, env1) →
      Eval (fuel + 2) (.ifExpression c conseq alt) env
        = match cond with
          | some (.error m) => some (some (.error m), env1)
          | none => none
          | some (.boolean b _) =>
            if b then
              match conseq with
              | some blk => Eval fuel blk env1
              | none => some (some NULL, env1)
            else
              match alt with
              | some blk => Eval fuel blk env1
              | none => some (some NULL, env1)
          | some (.integer _) =>
            match conseq with
            | some blk => Eval fuel blk env1
            | none => some (some NULL, env1)
          | some _ => some (some NULL, env1) := by
  intro fuel c conseq alt env cond env1 h
  show evalIfExpression (fuel + 1) c conseq alt env = _
  match cond with
  | none => simp [evalIfExpression, h, isError]
  | some (.error m) => simp [evalIfExpression, h, isError, typeOf]
  | some (.integer n) => simp [evalIfExpression, h, isError, typeOf]
  | some (.boolean b cn) => cases b <;> simp [evalIfExpression, h, isError, typeOf]
  | some .null => simp [evalIfExpression, h, isError, typeOf]
  | some (.strObj s) => simp [evalIfExpression, h, isError, typeOf]
  | some (.returnValue v) => simp [evalIfExpression, h, isError, typeOf]

/-- Witness for C7's amended theorem: a true Boolean condition takes the
consequence. -/
theorem ifTruthinessAmended_witness :
    Eval 7
      (.ifExpression (.boolean "true" true)
        (some (.blockStatement [.expressionStatement (.integerLiteral "10" 10)])) none)
      NewEnvironment
      = some (some (.integer 10), NewEnvironment) := by
  have h := ifTruthinessAmended 5 (.boolean "true" true)
    (some (.blockStatement [.expressionStatement (.integerLiteral "10" 10)])) none
    NewEnvironment (some TRUE) NewEnvironment rfl
  exact h

/-- C8.  Comment handling is split across the claim: the parser's
token-advance primitive does skip COMMENT tokens (last conjunct, for
every parser state), but the lexer in src/ never produces one — `//`
lexes as two SLASH tokens (`/` falls to the plain SLASH case of
NextToken), so input containing `//` reaches the expression engine as
SLASH tokens and the parser records "no prefix parse function found"
errors, in contradiction with the claim, with parser_test.go's
TestExpressionWithComments, and with the COMMENT-skipping loop the
parser itself carries. -/
theorem commentLexingBug :
    tokens "// hi\n5"
      = [⟨"/", "/"⟩, ⟨"/", "/"⟩, ⟨"IDENT", "hi"⟩, ⟨"INT", "5"⟩, ⟨"EOF", ""⟩] ∧
    (tokens "// hi\n5").filter (fun t => t.ttype = "COMMENT") = [] ∧
    (parseSource "// hi\n5").map (fun r => r.2.errors)
      = some ["no prefix parse function found for /",
              "no prefix parse function found for /"] ∧
    (∀ cur pk rest, (skipComments cur pk rest).1.ttype ≠ "COMMENT") := by
  refine ⟨rfl, rfl, rfl, ?_⟩
  intro cur pk rest
  induction rest generalizing cur pk with
  | nil =>
    simp only [skipComments]
    split_ifs with h1 h2
    · simp
    · exact h2
    · exact h1
  | cons t ts ih =>
    simp only [skipComments]
    split_ifs with h1
    · exact ih pk t
    · exact h1

/-- The eight infix operator tokens of the parser's precedence table
(the binary group the claim speaks about; call `(` and index `[` are
registered too but are not binary operators). -/
def infixOpTokens : List Token :=
  [⟨"+", "+"⟩, ⟨"-", "-"⟩, ⟨"*", "*"⟩, ⟨"/", "/"⟩,
   ⟨"==", "=="⟩, ⟨"!=", "!="⟩, ⟨"<", "<"⟩, ⟨">", ">"⟩]

set_option maxHeartbeats 1600000 in
/-- C9.  Precedence and associativity.  For every pair of binary
operators from the table, the chain `a o1 b o2 c` parses right-nested
exactly when o2 binds strictly tighter than o1 — so equal precedence
associates left and the nesting follows the precedence table; a prefix
`-` always binds tighter than any binary operator; the AST printer wraps
every binary node in exactly one pair of parentheses around
`left op right` (for arbitrary subtrees and operator strings); and the
claim's two examples go end to end: `-a * b` prints back as `((-a) * b)`
and `a + b + c` as `((a + b) + c)`.  (The identifier atoms are fixed
names: no parse decision reads an IDENT token's literal.) -/
theorem operatorPrecedenceParsing :
    (∀ o1 o2, o1 ∈ infixOpTokens → o2 ∈ infixOpTokens →
      (ParseProgram 30 (newParser
          [⟨"IDENT", "a"⟩, o1, ⟨"IDENT", "b"⟩, o2, ⟨"IDENT", "c"⟩, ⟨"EOF", ""⟩])).map
          (fun r => (r.1, r.2.errors))
        = some (.program [.expressionStatement
            (if precedenceOf o1.ttype < precedenceOf o2.ttype then
              .infixExpression (.identifier "a") o1.literal
                (.infixExpression (.identifier "b") o2.literal (.identifier "c"))
            else
              .infixExpression
                (.infixExpression (.identifier "a") o1.literal (.identifier "b"))
                o2.literal (.identifier "c"))], [])) ∧
    (∀ o, o ∈ infixOpTokens →
      (ParseProgram 30 (newParser
          [⟨"-", "-"⟩, ⟨"IDENT", "a"⟩, o, ⟨"IDENT", "b"⟩, ⟨"EOF", ""⟩])).map
          (fun r => (r.1, r.2.errors))
        = some (.program [.expressionStatement
            (.infixExpression (.prefixExpression "-" (.identifier "a")) o.literal
              (.identifier "b"))], [])) ∧
    (∀ fuel left op right,
      astString (fuel + 1) (.infixExpression left op right)
        = "(" ++ astString fuel left ++ " " ++ op ++ " " ++ astString fuel right ++ ")") ∧
    (parseSource "-a * b").map (fun r => (astString 100 r.1, r.2.errors))
      = some ("((-a) * b)", []) ∧
    (parseSource "a + b + c").map (fun r => (astString 100 r.1, r.2.errors))
      = some ("((a + b) + c)", []) := by
  refine ⟨?_, ?_, fun _ _ _ _ => rfl, rfl, rfl⟩
  · intro o1 o2 h1 h2
    fin_cases h1 <;> fin_cases h2 <;> rfl
  · intro o h
    fin_cases h <;> rfl

/-- Witness for C9: `x + y * z` parses right-nested (SUM < PRODUCT), and
`x + y - z` parses left-nested (equal precedence). -/
theorem operatorPrecedenceParsing_witness :
    (ParseProgram 30 (newParser
        [⟨"IDENT", "a"⟩, ⟨"+", "+"⟩, ⟨"IDENT", "b"⟩, ⟨"*", "*"⟩, ⟨"IDENT", "c"⟩, ⟨"EOF", ""⟩])).map
        (fun r => (r.1, r.2.errors))
      = some (.program [.expressionStatement
          (.infixExpression (.identifier "a") "+"
            (.infixExpression (.identifier "b") "*" (.identifier "c")))], []) ∧
    (ParseProgram 30 (newParser
        [⟨"IDENT", "a"⟩, ⟨"+", "+"⟩, ⟨"IDENT", "b"⟩, ⟨"-", "-"⟩, ⟨"IDENT", "c"⟩, ⟨"EOF", ""⟩])).map
        (fun r => (r.1, r.2.errors))
      = some (.program [.expressionStatement
          (.infixExpression
            (.infixExpression (.identifier "a") "+" (.identifier "b")) "-"
            (.identifier "c"))], []) :=
  ⟨operatorPrecedenceParsing.1 ⟨"+", "+"⟩ ⟨"*", "*"⟩ (by decide) (by decide),
   operatorPrecedenceParsing.1 ⟨"+", "+"⟩ ⟨"-", "-"⟩ (by decide) (by decide)⟩

set_option maxHeartbeats 8000000 in
/-- C10.  The end-to-end scenario: the program
`let i = 0; while (i < 3) { let i = i + 1 } i` parses without errors,
and evaluates to Integer 0 — the while expression is not a handled Eval
variant, so it contributes NULL without ever binding or changing `i`,
and the final identifier still reads the top-level 0. -/
theorem whileLetScenario :
    (parseSource "let i = 0; while (i < 3) \x7b let i = i + 1 \x7d i").map
        (fun r => r.2.errors) = some [] ∧
    (runProgram "let i = 0; while (i < 3) \x7b let i = i + 1 \x7d i").map (·.1)
      = some (some (.integer 0)) :=
  ⟨rfl, rfl⟩
